import Mathlib

/-!
Shallow embedding of `src/api/index.js` of the `herzonly/shortener-url`
repository: a URL-shortening service with three HTTP handlers
(`POST /shorten`, `GET /:name`, `GET /api/stats/:name`) backed by a single
JSON file (`database.json`) holding a map from short name to link record.

The embedding keeps the source's field and function names (`web_target`,
`web_url`, `visits`, `visit_history`, `readDatabase`, `writeDatabase`,
`isValidUrl`).  Request-scoped values that the code obtains from the
environment (`req.clientIp`, `new Date().toISOString()`) are explicit
parameters (`ip`, `now`).
-/

/-- One entry of a record's `visit_history`: the object
`{ip: clientIP, timestamp: visitTimestamp}` pushed on every redirect
(`src/api/index.js` lines 142-145). -/
structure Visit where
  ip : String
  timestamp : String
deriving Repr, DecidableEq

/-- The record stored under a short name, exactly the object literal built in
`app.post('/shorten')` (`src/api/index.js` lines 95-103).  The spec calls
`web_target` "target_url", `web_url` "short_url" and `visits` "visit_count". -/
structure ShortLinkRecord where
  name : String
  web_target : String
  web_url : String
  created_at : String
  created_by_ip : String
  visits : Nat
  visit_history : List Visit
deriving Repr, DecidableEq

/-- The store: the JSON object persisted in `database.json`, a mapping from
short name to record.  Modelled as an association list in object-key order;
a JavaScript object never holds two own properties with the same key, and
insertion (`db[name] = {...}` on a fresh key) appends at the end. -/
abbrev Store := List (String × ShortLinkRecord)

/-- `const baseUrl = 'shortmyurl.us.kg'` (`src/api/index.js` line 9). -/
def baseUrl : String := "shortmyurl.us.kg"

/-- Own-property lookup `db[name]` restricted to own keys: the first (and
only) binding of `name` in the object. -/
def lookupStore : Store → String → Option ShortLinkRecord
  | [], _ => none
  | p :: rest, name => if p.1 = name then some p.2 else lookupStore rest name

/-- In-place mutation of the record found under `name` (the handler mutates
`urlData` and then serializes the whole `db`): the binding of `name` is
replaced, every other binding and the key order are untouched. -/
def setStore (db : Store) (name : String) (r : ShortLinkRecord) : Store :=
  db.map (fun p => if p.1 = name then (p.1, r) else p)

/-- The own property names of `Object.prototype` in Node.js.  `db` is the
result of `JSON.parse`, a plain object inheriting from `Object.prototype`,
so for these names `db[name]` yields the inherited (truthy) value even when
the object has no own property `name`. -/
def protoProps : List String :=
  ["constructor", "hasOwnProperty", "isPrototypeOf", "propertyIsEnumerable",
   "toLocaleString", "toString", "valueOf", "__defineGetter__",
   "__defineSetter__", "__lookupGetter__", "__lookupSetter__", "__proto__"]

/-- JavaScript truthiness of `db[name]` (the test at `src/api/index.js`
line 85 and line 131): an own record (records are objects, hence truthy), or
an inherited `Object.prototype` property (functions / the prototype object,
all truthy). -/
def jsTruthy (db : Store) (name : String) : Bool :=
  (lookupStore db name).isSome || protoProps.contains name

/-- `isValidUrl` (`src/api/index.js` lines 40-47) calls the platform builtin
`new URL(string)` (WHATWG URL parser), which is not part of this repository's
sources.  Modelled from the spec: "`target_url` parses as a well-formed
absolute URL" — the string must start with a URL scheme
(`letter (letter|digit|+|-|.)* ":"`), as the WHATWG parser requires;
`"https://example.com"` is accepted, `"not-a-url"` (no scheme) is not. -/
def isSchemeChar (c : Char) : Bool :=
  c.isAlpha || c.isDigit || c == '+' || c == '-' || c == '.'

/-- See `isSchemeChar`; model of `isValidUrl` from `src/api/index.js`
lines 40-47. -/
def isValidUrl (s : String) : Bool :=
  s.toList.contains ':' &&
    match s.toList.takeWhile (fun c => c ≠ ':') with
    | [] => false
    | c :: rest => c.isAlpha && rest.all isSchemeChar

/-- The name test `/^[a-zA-Z0-9-]+$/.test(name)` (`src/api/index.js`
line 74): one or more ASCII letters, digits or hyphens. -/
def isNameChar (c : Char) : Bool :=
  c.isAlpha || c.isDigit || c == '-'

/-- See `isNameChar`: the whole-string regex test of `src/api/index.js`
line 74. -/
def validName (s : String) : Bool :=
  !s.isEmpty && s.toList.all isNameChar

/-- The error readDatabase throws on unparseable file content
(`JSON.parse` failure, rethrown at `src/api/index.js` line 30). -/
inductive StorageError where
  | parseFailure
deriving Repr, DecidableEq

/-- The state of `database.json` on disk.  `stored db` is a file whose text
is the JSON serialization of the store `db` — the only content this program
ever writes (see `encodeStore` below for the serialized shape; the JSON
codec's round trip recovers `db` from it);
`empty` is an existing zero-length file; `corrupt` is existing text that
`JSON.parse` rejects. -/
inductive FileState where
  | absent
  | empty
  | stored (db : Store)
  | corrupt
deriving Repr, DecidableEq

/-- `readDatabase` (`src/api/index.js` lines 21-32): read and `JSON.parse`
the file.  An empty file is coerced to `'{}'` (`data || '{}'`, line 24)
without writing; a missing file (ENOENT) is created with content `'{}'` and
an empty store is returned (line 27); any other failure — in particular a
parse failure on corrupt content — is rethrown.  Returns the parsed store
together with the resulting file state. -/
def readDatabase : FileState → Except StorageError (Store × FileState)
  | .absent => .ok ([], .stored [])
  | .empty => .ok ([], .empty)
  | .stored db => .ok (db, .stored db)
  | .corrupt => .error .parseFailure

/-- `writeDatabase` (`src/api/index.js` lines 35-37): overwrite the file
with the serialization of the full store. -/
def writeDatabase (db : Store) : FileState := .stored db

/-- The 400 messages of `app.post('/shorten')`, in source order:
missing field (line 59), invalid URL format (line 68), invalid name
(line 77), name already taken (line 88). -/
inductive CreateError where
  | missingField
  | invalidUrl
  | invalidName
  | nameTaken
deriving Repr, DecidableEq

/-- The responses the three handlers can produce.
`created r` is `200 {success:true, data:r}` from `/shorten`;
`statsOk r` is `200 {success:true, data:r}` from `/api/stats/:name`;
`redirect loc` is `res.redirect(loc)`, HTTP 302;
`badRequest e` is a 400 with the message of `e`;
`notFound` is the 404 `'URL tidak ditemukan'`;
`serverError` is the catch-all 500 `'Terjadi kesalahan server'`;
`statsJunk` is the 200 that `/api/stats/:name` produces when `db[name]` is a
truthy inherited `Object.prototype` value rather than a record. -/
inductive HResp where
  | created (r : ShortLinkRecord)
  | statsOk (r : ShortLinkRecord)
  | redirect (location : String)
  | badRequest (e : CreateError)
  | notFound
  | serverError
  | statsJunk
deriving Repr, DecidableEq

/-- The record mutation of `app.get('/:name')` (`src/api/index.js`
lines 140-145): `urlData.visits += 1` and
`urlData.visit_history.push({ip, timestamp})`. -/
def updatedRecord (r : ShortLinkRecord) (ip now : String) : ShortLinkRecord :=
  { r with
    visits := r.visits + 1
    visit_history := r.visit_history ++ [{ ip := ip, timestamp := now }] }

/-- `app.post('/shorten')` (`src/api/index.js` lines 50-121).  Validation in
source order, each failure returning before the database is touched:
`!url || !name` (a JS string is falsy exactly when empty), `!isValidUrl(url)`,
the name regex; then the database is read, `db[name]` truthiness decides the
conflict, and on success the new record is inserted and the full store
written.  A storage failure is caught and turned into the 500 response. -/
def shortenApp (file : FileState) (url name ip now : String) :
    HResp × FileState :=
  if url = "" ∨ name = "" then (.badRequest .missingField, file)
  else if isValidUrl url = false then (.badRequest .invalidUrl, file)
  else if validName name = false then (.badRequest .invalidName, file)
  else
    match readDatabase file with
    | .error _ => (.serverError, file)
    | .ok (db, file1) =>
      if jsTruthy db name then (.badRequest .nameTaken, file1)
      else
        let r : ShortLinkRecord :=
          { name := name
            web_target := url
            web_url := baseUrl ++ "/" ++ name
            created_at := now
            created_by_ip := ip
            visits := 0
            visit_history := [] }
        (.created r, writeDatabase (db ++ [(name, r)]))

/-- `app.get('/:name')` (`src/api/index.js` lines 124-157).  Read the
database; `if (!urlData)` return 404; otherwise mutate the record, write the
full store and redirect (302) to `urlData.web_target`.  When `db[name]` is a
truthy inherited `Object.prototype` value instead of a record,
`urlData.visits += 1` silently yields NaN but
`urlData.visit_history.push(...)` throws (`visit_history` is undefined), so
the catch block answers 500 before any write. -/
def resolveApp (file : FileState) (name ip now : String) :
    HResp × FileState :=
  match readDatabase file with
  | .error _ => (.serverError, file)
  | .ok (db, file1) =>
    match lookupStore db name with
    | some r =>
        let r2 := updatedRecord r ip now
        (.redirect r2.web_target, writeDatabase (setStore db name r2))
    | none =>
        if protoProps.contains name then (.serverError, file1)
        else (.notFound, file1)

/-- `app.get('/api/stats/:name')` (`src/api/index.js` lines 160-186).
Read-only: 404 when `db[name]` is falsy, otherwise the record is returned;
no write in any branch.  On an inherited prototype value the handler still
answers 200 but `data` is not a record (`statsJunk`). -/
def statsApp (file : FileState) (name : String) : HResp × FileState :=
  match readDatabase file with
  | .error _ => (.serverError, file)
  | .ok (db, file1) =>
    match lookupStore db name with
    | some r => (.statsOk r, file1)
    | none =>
        if protoProps.contains name then (.statsJunk, file1)
        else (.notFound, file1)

/-- N sequential `GET /:name` requests for the same name: each request's
resulting file state is the next request's starting state.  The request list
carries each visitor's `(clientIp, timestamp)` pair in request order. -/
def resolveManyApp (file : FileState) (name : String) :
    List (String × String) → FileState
  | [] => file
  | q :: rest => resolveManyApp (resolveApp file name q.1 q.2).2 name rest

/-!
JSON codec for the persisted representation.  `writeDatabase` runs
`JSON.stringify(data, null, 2)` and `readDatabase` runs `JSON.parse`, both
platform builtins; we model them at the level of JSON values: `encodeStore`
is the JSON value `stringify` renders, `decodeStore` recovers a store from
the JSON value `parse` returns for such text.
-/

/-- JSON values, as far as this program's database file needs them. -/
inductive Json where
  | str (s : String)
  | num (n : Nat)
  | arr (elems : List Json)
  | obj (fields : List (String × Json))

/-- The JSON value of one `visit_history` entry. -/
def encodeVisit (v : Visit) : Json :=
  .obj [("ip", .str v.ip), ("timestamp", .str v.timestamp)]

/-- The JSON value of one stored record, fields in the order the object
literal of `src/api/index.js` lines 95-103 declares them (JS objects
preserve insertion order, so `JSON.stringify` renders them in this order). -/
def encodeRecord (r : ShortLinkRecord) : Json :=
  .obj [("name", .str r.name),
        ("web_target", .str r.web_target),
        ("web_url", .str r.web_url),
        ("created_at", .str r.created_at),
        ("created_by_ip", .str r.created_by_ip),
        ("visits", .num r.visits),
        ("visit_history", .arr (r.visit_history.map encodeVisit))]

/-- The JSON value of the whole store: one object field per short name, in
key order. -/
def encodeStore (db : Store) : Json :=
  .obj (db.map (fun p => (p.1, encodeRecord p.2)))

/-- Recover a `visit_history` entry from its JSON value. -/
def decodeVisit : Json → Option Visit
  | .obj [("ip", .str i), ("timestamp", .str t)] =>
      some { ip := i, timestamp := t }
  | _ => none

/-- Recover a `visit_history` list element by element. -/
def decodeVisits : List Json → Option (List Visit)
  | [] => some []
  | j :: rest =>
      match decodeVisit j, decodeVisits rest with
      | some v, some vs => some (v :: vs)
      | _, _ => none

/-- Recover a record from the JSON shape `encodeRecord` produces. -/
def decodeRecord : Json → Option ShortLinkRecord
  | .obj [("name", .str n), ("web_target", .str t), ("web_url", .str u),
          ("created_at", .str c), ("created_by_ip", .str i),
          ("visits", .num v), ("visit_history", .arr h)] =>
      match decodeVisits h with
      | some vh =>
          some { name := n, web_target := t, web_url := u, created_at := c,
                 created_by_ip := i, visits := v, visit_history := vh }
      | none => none
  | _ => none

/-- Recover the store's bindings field by field. -/
def decodeFields : List (String × Json) → Option Store
  | [] => some []
  | f :: rest =>
      match decodeRecord f.2, decodeFields rest with
      | some r, some db => some ((f.1, r) :: db)
      | _, _ => none

/-- Recover a store from the JSON value of the database file. -/
def decodeStore : Json → Option Store
  | .obj fields => decodeFields fields
  | _ => none

/-- A well-formed store: a JavaScript object holds each key at most once. -/
def WellFormedStore (db : Store) : Prop := (db.map Prod.fst).Nodup

/-- The store invariant of the spec: every record's key equals its `name`
field. -/
def StoreInv (db : Store) : Prop := ∀ p ∈ db, p.2.name = p.1

/-! ### Store lemmas -/

/-- Replacing the record bound to `name` makes a subsequent lookup of `name`
find the replacement. -/
theorem lookupStore_setStore_self (db : Store) (name : String)
    (r v : ShortLinkRecord) (h : lookupStore db name = some r) :
    lookupStore (setStore db name v) name = some v := by
  induction db with
  | nil => simp [lookupStore] at h
  | cons p rest ih =>
    by_cases hp : p.1 = name
    · simp [lookupStore, setStore, hp]
    · simp [lookupStore, setStore, hp] at h ⊢
      exact ih h

/-- A lookup of a different key is unaffected by `setStore`. -/
theorem lookupStore_setStore_other (db : Store) (name m : String)
    (v : ShortLinkRecord) (h : m ≠ name) :
    lookupStore (setStore db name v) m = lookupStore db m := by
  induction db with
  | nil => rfl
  | cons p rest ih =>
    simp only [setStore, List.map_cons] at ih ⊢
    by_cases hp : p.1 = name
    · have hnm : ¬ name = m := fun e => h e.symm
      simp [lookupStore, hp, hnm, ih]
    · simp only [if_neg hp, lookupStore]
      by_cases hm : p.1 = m
      · simp [hm]
      · simp [if_neg hm, ih]

/-- Two successive replacements at the same key collapse to the second. -/
theorem setStore_setStore (db : Store) (name : String)
    (v w : ShortLinkRecord) :
    setStore (setStore db name v) name w = setStore db name w := by
  induction db with
  | nil => rfl
  | cons p rest ih =>
    by_cases hp : p.1 = name <;> simp [setStore, hp] at ih ⊢ <;> exact ih

/-- A successful lookup pinpoints a binding of the store. -/
theorem lookupStore_mem (db : Store) (name : String) (r : ShortLinkRecord)
    (h : lookupStore db name = some r) : (name, r) ∈ db := by
  induction db with
  | nil => simp [lookupStore] at h
  | cons p rest ih =>
    by_cases hp : p.1 = name
    · simp [lookupStore, hp] at h
      refine List.mem_cons.2 (Or.inl ?_)
      cases p with
      | mk a b => simp_all
    · simp [lookupStore, hp] at h
      exact List.mem_cons_of_mem _ (ih h)

/-- A key absent from `db` is found in `db ++ [(name, r)]` with record `r`. -/
theorem lookupStore_append_right (db : Store) (name : String)
    (r : ShortLinkRecord) (h : lookupStore db name = none) :
    lookupStore (db ++ [(name, r)]) name = some r := by
  induction db with
  | nil => simp [lookupStore]
  | cons p rest ih =>
    by_cases hp : p.1 = name <;> simp [lookupStore, hp] at h ⊢
    exact ih h

/-- `setStore` with a record whose `name` field is the key preserves the
store invariant. -/
theorem StoreInv_setStore (db : Store) (name : String) (v : ShortLinkRecord)
    (hinv : StoreInv db) (hv : v.name = name) :
    StoreInv (setStore db name v) := by
  intro p hp
  simp only [setStore, List.mem_map] at hp
  obtain ⟨q, hq, hpq⟩ := hp
  by_cases h : q.1 = name
  · simp [if_pos h] at hpq
    subst hpq
    simpa [h] using hv
  · simp [if_neg h] at hpq
    subst hpq
    exact hinv q hq

/-- Appending a binding whose record carries the key preserves the store
invariant. -/
theorem StoreInv_append (db : Store) (name : String) (r : ShortLinkRecord)
    (hinv : StoreInv db) (hr : r.name = name) :
    StoreInv (db ++ [(name, r)]) := by
  intro p hp
  rcases List.mem_append.1 hp with h | h
  · exact hinv p h
  · simp at h
    subst h
    exact hr

/-! ### JSON codec round trip -/

/-- Decoding inverts encoding on a `visit_history` entry. -/
theorem decodeVisit_encodeVisit (v : Visit) :
    decodeVisit (encodeVisit v) = some v := rfl

/-- Decoding inverts encoding on a `visit_history` list. -/
theorem decodeVisits_encode (l : List Visit) :
    decodeVisits (l.map encodeVisit) = some l := by
  induction l with
  | nil => rfl
  | cons v rest ih => simp [decodeVisits, decodeVisit_encodeVisit, ih]

/-- Decoding inverts encoding on a record. -/
theorem decodeRecord_encodeRecord (r : ShortLinkRecord) :
    decodeRecord (encodeRecord r) = some r := by
  simp [encodeRecord, decodeRecord, decodeVisits_encode]

/-- Decoding inverts encoding on the store's field list. -/
theorem decodeFields_encode (db : Store) :
    decodeFields (db.map (fun p => (p.1, encodeRecord p.2))) = some db := by
  induction db with
  | nil => rfl
  | cons p rest ih => simp [decodeFields, decodeRecord_encodeRecord, ih]

/-- Decoding inverts encoding on the whole store. -/
theorem decodeStore_encodeStore (db : Store) :
    decodeStore (encodeStore db) = some db := by
  simp [encodeStore, decodeStore, decodeFields_encode]

/-! ### Resolve-step lemmas -/

/-- One `GET /:name` request against a stored database whose store binds
`name` to `r`: 302 to `r.web_target`, and the file now holds the store with
the updated record. -/
theorem resolveApp_stored_some (db : Store) (name ip now : String)
    (r : ShortLinkRecord) (h : lookupStore db name = some r) :
    resolveApp (.stored db) name ip now =
      (.redirect r.web_target,
       .stored (setStore db name (updatedRecord r ip now))) := by
  simp [resolveApp, readDatabase, writeDatabase, h, updatedRecord]

/-- `setStore` never touches a store none of whose keys is `name`. -/
theorem setStore_of_not_mem_keys (db : Store) (name : String)
    (v : ShortLinkRecord) (h : ∀ p ∈ db, p.1 ≠ name) :
    setStore db name v = db := by
  induction db with
  | nil => rfl
  | cons p rest ih =>
    simp only [setStore, List.map_cons,
      if_neg (h p (List.mem_cons_self p rest))]
    rw [show List.map (fun p => if p.1 = name then (p.1, v) else p) rest =
      setStore rest name v from rfl]
    rw [ih (fun q hq => h q (List.mem_cons_of_mem p hq))]

/-- `setStore` changes records only, never the key sequence. -/
theorem setStore_keys (db : Store) (name : String) (v : ShortLinkRecord) :
    (setStore db name v).map Prod.fst = db.map Prod.fst := by
  simp only [setStore, List.map_map]
  refine List.map_congr_left ?_
  intro p _
  by_cases h : p.1 = name <;> simp [h]

/-- On a store without duplicate keys, writing back the very record a lookup
found is a no-op. -/
theorem setStore_eq_self_of_nodup (db : Store) (name : String)
    (r : ShortLinkRecord) (hwf : (db.map Prod.fst).Nodup)
    (h : lookupStore db name = some r) :
    setStore db name r = db := by
  induction db with
  | nil => rfl
  | cons p rest ih =>
    simp only [List.map_cons, List.nodup_cons] at hwf
    by_cases hp : p.1 = name
    · simp only [lookupStore, if_pos hp, Option.some.injEq] at h
      simp only [setStore, List.map_cons, if_pos hp]
      rw [show List.map (fun q => if q.1 = name then (q.1, r) else q) rest =
        setStore rest name r from rfl]
      have hnm : ∀ q ∈ rest, q.1 ≠ name := by
        intro q hq hqe
        apply hwf.1
        rw [hp, ← hqe]
        exact List.mem_map_of_mem Prod.fst hq
      rw [setStore_of_not_mem_keys rest name r hnm, ← h]
    · simp only [lookupStore, if_neg hp] at h
      simp only [setStore, List.map_cons, if_neg hp]
      rw [show List.map (fun q => if q.1 = name then (q.1, r) else q) rest =
        setStore rest name r from rfl]
      rw [ih hwf.2 h]

/-- N sequential `GET /:name` requests for a bound name of a
duplicate-key-free store: the final file holds the store whose record under
`name` gained one visit and one history entry per request, history entries
in request order. -/
theorem resolveManyApp_stored_some (name : String)
    (reqs : List (String × String)) :
    ∀ (db : Store) (r : ShortLinkRecord), (db.map Prod.fst).Nodup →
      lookupStore db name = some r →
      resolveManyApp (.stored db) name reqs =
        .stored (setStore db name
          { r with
            visits := r.visits + reqs.length
            visit_history := r.visit_history ++
              reqs.map (fun q => { ip := q.1, timestamp := q.2 }) }) := by
  induction reqs with
  | nil =>
    intro db r hwf h
    simp only [resolveManyApp, List.length_nil, Nat.add_zero, List.map_nil,
      List.append_nil]
    rw [show ({ r with visits := r.visits, visit_history := r.visit_history } :
      ShortLinkRecord) = r from rfl]
    rw [setStore_eq_self_of_nodup db name r hwf h]
  | cons q rest ih =>
    intro db r hwf h
    simp only [resolveManyApp, resolveApp_stored_some db name q.1 q.2 r h]
    rw [ih (setStore db name (updatedRecord r q.1 q.2))
      (updatedRecord r q.1 q.2)
      (by rw [setStore_keys]; exact hwf)
      (lookupStore_setStore_self db name r _ h)]
    rw [setStore_setStore]
    have hv : r.visits + 1 + rest.length = r.visits + (rest.length + 1) := by
      omega
    simp [updatedRecord, List.append_assoc, hv]

/-! ### Claims -/

/-- Claim C1: for a name bound in the store, `GET /:name` increments the
record's visit counter by exactly 1, appends `{ip, timestamp}` to its
`visit_history`, persists the full store, and answers an HTTP 302 redirect
to the record's target URL; consequently resolving an existing fresh record
N times sequentially yields a visit count of N and a history of length N
whose entries are in request order. -/
theorem c1_resolve_increments_and_counts (db : Store) (name : String)
    (r : ShortLinkRecord) (hwf : WellFormedStore db)
    (hfind : lookupStore db name = some r) :
    (∀ ip now, resolveApp (.stored db) name ip now =
      (.redirect r.web_target,
       writeDatabase (setStore db name (updatedRecord r ip now)))) ∧
    (r.visits = 0 → r.visit_history = [] →
      ∀ reqs : List (String × String),
        ∃ r', resolveManyApp (.stored db) name reqs =
            .stored (setStore db name r') ∧
          lookupStore (setStore db name r') name = some r' ∧
          r'.visits = reqs.length ∧
          r'.visit_history =
            reqs.map (fun q => { ip := q.1, timestamp := q.2 }) ∧
          r'.web_target = r.web_target) := by
  constructor
  · intro ip now
    simpa [writeDatabase] using resolveApp_stored_some db name ip now r hfind
  · intro h0 hh reqs
    refine ⟨{ r with
        visits := r.visits + reqs.length
        visit_history := r.visit_history ++
          reqs.map (fun q => { ip := q.1, timestamp := q.2 }) },
      resolveManyApp_stored_some name reqs db r hwf hfind,
      lookupStore_setStore_self db name r _ hfind, ?_, ?_, rfl⟩
    · simp [h0]
    · simp [hh]

/-- A one-record demonstration store for the C1 witness: the fresh record
"ex1" of the spec's example scenario. -/
def c1DemoRecord : ShortLinkRecord :=
  { name := "ex1"
    web_target := "https://example.com"
    web_url := "shortmyurl.us.kg/ex1"
    created_at := "2026-01-01T00:00:00.000Z"
    created_by_ip := "9.9.9.9"
    visits := 0
    visit_history := [] }

/-- See `c1DemoRecord`. -/
def c1DemoStore : Store := [("ex1", c1DemoRecord)]

/-- Claim C1 witness: the demonstration record resolved once, and then a
run of two sequential resolutions counted and logged in order. -/
theorem c1_witness :
    WellFormedStore c1DemoStore ∧
    lookupStore c1DemoStore "ex1" = some c1DemoRecord ∧
    resolveApp (.stored c1DemoStore) "ex1" "7.7.7.7" "t1" =
      (.redirect "https://example.com",
       writeDatabase (setStore c1DemoStore "ex1"
         (updatedRecord c1DemoRecord "7.7.7.7" "t1"))) ∧
    (∃ r', resolveManyApp (.stored c1DemoStore) "ex1"
          [("7.7.7.7", "t1"), ("8.8.8.8", "t2")] =
        .stored (setStore c1DemoStore "ex1" r') ∧
      lookupStore (setStore c1DemoStore "ex1" r') "ex1" = some r' ∧
      r'.visits = 2 ∧
      r'.visit_history = [{ ip := "7.7.7.7", timestamp := "t1" },
                          { ip := "8.8.8.8", timestamp := "t2" }] ∧
      r'.web_target = "https://example.com") := by
  have hwf : WellFormedStore c1DemoStore := by
    unfold WellFormedStore
    decide
  have h := c1_resolve_increments_and_counts c1DemoStore "ex1" c1DemoRecord
    hwf (by decide)
  exact ⟨hwf, by decide, h.1 "7.7.7.7" "t1",
    h.2 rfl rfl [("7.7.7.7", "t1"), ("8.8.8.8", "t2")]⟩

/-- Claim C2 counterexample: "toString" matches `[a-zA-Z0-9-]+` and is not a
key of the empty store, yet creating it with a valid URL is rejected with
the name-taken conflict and nothing is stored — `db["toString"]` is the
inherited, truthy `Object.prototype.toString`. -/
theorem c2_counterexample :
    lookupStore ([] : Store) "toString" = none ∧
    validName "toString" = true ∧
    isValidUrl "https://example.com" = true ∧
    shortenApp (.stored []) "https://example.com" "toString" "1.2.3.4"
        "2026-01-01T00:00:00.000Z" =
      (.badRequest .nameTaken, .stored []) := by
  decide

/-- Claim C2 as amended: for a non-empty well-formed url, a name matching
the pattern that is neither a store key nor an inherited `Object.prototype`
property, `/shorten` builds the record with `visits = 0`,
`visit_history = []`, `created_at` the current timestamp, `created_by_ip`
the caller's IP and `web_url = baseUrl ++ "/" ++ name`, appends it to the
store, persists the full store, returns it, and an immediate stats fetch
returns the same record with `visits = 0` and empty history. -/
theorem c2_create_success (db : Store) (url name ip now : String)
    (hurl : url ≠ "") (hvu : isValidUrl url = true)
    (hvn : validName name = true) (hfree : lookupStore db name = none)
    (hproto : protoProps.contains name = false) :
    ∃ r : ShortLinkRecord,
      shortenApp (.stored db) url name ip now =
        (.created r, writeDatabase (db ++ [(name, r)])) ∧
      r.name = name ∧ r.web_target = url ∧
      r.web_url = baseUrl ++ "/" ++ name ∧
      r.created_at = now ∧ r.created_by_ip = ip ∧
      r.visits = 0 ∧ r.visit_history = [] ∧
      statsApp (writeDatabase (db ++ [(name, r)])) name =
        (.statsOk r, writeDatabase (db ++ [(name, r)])) := by
  have hname : name ≠ "" := by
    intro e
    subst e
    exact absurd hvn (by decide)
  refine ⟨{ name := name
            web_target := url
            web_url := baseUrl ++ "/" ++ name
            created_at := now
            created_by_ip := ip
            visits := 0
            visit_history := [] },
    ?_, rfl, rfl, rfl, rfl, rfl, rfl, rfl, ?_⟩
  · have hp2 : name ∉ protoProps := by simpa using hproto
    simp [shortenApp, readDatabase, writeDatabase, jsTruthy, hurl, hvu, hvn,
      hname, hfree, hp2]
  · simp [statsApp, readDatabase, writeDatabase,
      lookupStore_append_right db name _ hfree]

/-- Claim C2 witness: the spec's example scenario, `{url:
"https://example.com", name: "ex1"}` created against the empty store. -/
theorem c2_witness :
    ("https://example.com" ≠ "" ∧
     isValidUrl "https://example.com" = true ∧
     validName "ex1" = true ∧
     lookupStore ([] : Store) "ex1" = none ∧
     protoProps.contains "ex1" = false) ∧
    (∃ r : ShortLinkRecord,
      shortenApp (.stored []) "https://example.com" "ex1" "1.2.3.4"
          "2026-01-01T00:00:00.000Z" =
        (.created r, writeDatabase ([] ++ [("ex1", r)])) ∧
      r.name = "ex1" ∧ r.web_target = "https://example.com" ∧
      r.web_url = baseUrl ++ "/" ++ "ex1" ∧
      r.created_at = "2026-01-01T00:00:00.000Z" ∧
      r.created_by_ip = "1.2.3.4" ∧
      r.visits = 0 ∧ r.visit_history = [] ∧
      statsApp (writeDatabase ([] ++ [("ex1", r)])) "ex1" =
        (.statsOk r, writeDatabase ([] ++ [("ex1", r)]))) :=
  ⟨by decide,
   c2_create_success [] "https://example.com" "ex1" "1.2.3.4"
     "2026-01-01T00:00:00.000Z" (by decide) (by decide) (by decide)
     (by decide) (by decide)⟩

/-- Claim C3 counterexample: for the request `{url: "https://example.com",
name: "constructor"}` against the empty store, none of the four spec rules
fails — both fields are non-empty, the url is well formed, the name matches
the pattern, and the name is not a key of the store — yet the handler
answers the name-taken conflict error. -/
theorem c3_counterexample :
    ("https://example.com" ≠ "" ∧ "constructor" ≠ "") ∧
    isValidUrl "https://example.com" = true ∧
    validName "constructor" = true ∧
    lookupStore ([] : Store) "constructor" = none ∧
    (shortenApp (.stored []) "https://example.com" "constructor" "1.2.3.4"
        "2026-01-01T00:00:00.000Z").1 = .badRequest .nameTaken := by
  decide

/-- Claim C3 as amended: validation runs in the fixed order (1) both fields
non-empty, (2) url well formed, (3) name matches the pattern, (4) `db[name]`
falsy — where rule (4) is JavaScript truthiness, so an own store key or an
inherited `Object.prototype` property both count as taken — short-circuiting
on the first failing rule, and the response error is exactly the one of the
first failing rule. -/
theorem c3_validation_order (db : Store) (url name ip now : String) :
    ((shortenApp (.stored db) url name ip now).1 =
        .badRequest .missingField ↔ (url = "" ∨ name = "")) ∧
    ((shortenApp (.stored db) url name ip now).1 =
        .badRequest .invalidUrl ↔
      (¬(url = "" ∨ name = "") ∧ isValidUrl url = false)) ∧
    ((shortenApp (.stored db) url name ip now).1 =
        .badRequest .invalidName ↔
      (¬(url = "" ∨ name = "") ∧ isValidUrl url = true ∧
       validName name = false)) ∧
    ((shortenApp (.stored db) url name ip now).1 =
        .badRequest .nameTaken ↔
      (¬(url = "" ∨ name = "") ∧ isValidUrl url = true ∧
       validName name = true ∧ jsTruthy db name = true)) := by
  simp only [shortenApp, readDatabase]
  split_ifs with h1 h2 h3 h4 <;>
    simp_all [Bool.not_eq_false, Bool.not_eq_true]

/-- Claim C4: creating a name that is already a store key fails with the
conflict error (400), the file is not rewritten, and a subsequent stats
fetch still returns the originally stored record. -/
theorem c4_conflict_preserves_store (db : Store) (url name ip now : String)
    (r : ShortLinkRecord) (hfound : lookupStore db name = some r)
    (hurl : url ≠ "") (hvu : isValidUrl url = true)
    (hvn : validName name = true) :
    shortenApp (.stored db) url name ip now =
      (.badRequest .nameTaken, .stored db) ∧
    statsApp (.stored db) name = (.statsOk r, .stored db) := by
  have hname : name ≠ "" := by
    intro e
    subst e
    exact absurd hvn (by decide)
  constructor
  · simp [shortenApp, readDatabase, jsTruthy, hurl, hvu, hvn, hname, hfound]
  · simp [statsApp, readDatabase, hfound]

/-- The stored record of the C4 witness: "dup" created first with
`https://first.example`. -/
def c4DemoRecord : ShortLinkRecord :=
  { name := "dup"
    web_target := "https://first.example"
    web_url := "shortmyurl.us.kg/dup"
    created_at := "2026-01-01T00:00:00.000Z"
    created_by_ip := "9.9.9.9"
    visits := 0
    visit_history := [] }

/-- See `c4DemoRecord`. -/
def c4DemoStore : Store := [("dup", c4DemoRecord)]

/-- Claim C4 witness: the spec's duplicate scenario — creating "dup" a
second time with a different URL is rejected, and stats still answer the
first record. -/
theorem c4_witness :
    (lookupStore c4DemoStore "dup" = some c4DemoRecord ∧
     "https://second.example" ≠ "" ∧
     isValidUrl "https://second.example" = true ∧
     validName "dup" = true) ∧
    shortenApp (.stored c4DemoStore) "https://second.example" "dup"
        "1.2.3.4" "2026-02-02T00:00:00.000Z" =
      (.badRequest .nameTaken, .stored c4DemoStore) ∧
    statsApp (.stored c4DemoStore) "dup" =
      (.statsOk c4DemoRecord, .stored c4DemoStore) :=
  ⟨by decide,
   c4_conflict_preserves_store c4DemoStore "https://second.example" "dup"
     "1.2.3.4" "2026-02-02T00:00:00.000Z" c4DemoRecord (by decide)
     (by decide) (by decide) (by decide)⟩

/-- Claim C5: a create request whose url is non-empty and well formed but
whose name does not match `[a-zA-Z0-9-]+` is rejected with a validation
error — the missing-field error when the name is empty, the invalid-name
error otherwise — and the file is untouched whatever its state, since the
name check runs before the database is even read. -/
theorem c5_invalid_name_rejected (file : FileState)
    (url name ip now : String) (hurl : url ≠ "")
    (hvu : isValidUrl url = true) (hvn : validName name = false) :
    shortenApp file url name ip now =
      (.badRequest (if name = "" then .missingField else .invalidName),
       file) := by
  by_cases hn : name = ""
  · simp [shortenApp, hn]
  · simp [shortenApp, hurl, hvu, hvn, hn]

/-- Claim C5 witness: the name "foo bar" (contains a space) with a valid
URL against a stored empty database. -/
theorem c5_witness :
    ("https://example.com" ≠ "" ∧
     isValidUrl "https://example.com" = true ∧
     validName "foo bar" = false) ∧
    shortenApp (.stored []) "https://example.com" "foo bar" "1.2.3.4"
        "2026-01-01T00:00:00.000Z" =
      (.badRequest (if "foo bar" = "" then .missingField else .invalidName),
       .stored []) :=
  ⟨by decide,
   c5_invalid_name_rejected (.stored []) "https://example.com" "foo bar"
     "1.2.3.4" "2026-01-01T00:00:00.000Z" (by decide) (by decide)
     (by decide)⟩

/-- Claim C6 counterexample: "valueOf" is not a key of the empty store, yet
`GET /valueOf` does not answer 404 — `db["valueOf"]` is the inherited,
truthy `Object.prototype.valueOf`, the handler trips over it and answers
the 500 server error (the file is still not written). -/
theorem c6_counterexample :
    lookupStore ([] : Store) "valueOf" = none ∧
    resolveApp (.stored []) "valueOf" "1.2.3.4" "t1" =
      (.serverError, .stored []) := by
  decide

/-- Claim C6 as amended: for a name that is neither a store key nor an
inherited `Object.prototype` property, `GET /:name` answers 404 and the
persisted representation is identical before and after the request. -/
theorem c6_not_found_no_write (db : Store) (name ip now : String)
    (habsent : lookupStore db name = none)
    (hproto : protoProps.contains name = false) :
    resolveApp (.stored db) name ip now = (.notFound, .stored db) := by
  have hp2 : name ∉ protoProps := by simpa using hproto
  simp [resolveApp, readDatabase, habsent, hp2]

/-- Claim C6 witness: resolving the never-created name "missing" against a
stored empty database. -/
theorem c6_witness :
    (lookupStore ([] : Store) "missing" = none ∧
     protoProps.contains "missing" = false) ∧
    resolveApp (.stored []) "missing" "1.2.3.4" "t1" =
      (.notFound, .stored []) :=
  ⟨by decide,
   c6_not_found_no_write [] "missing" "1.2.3.4" "t1" (by decide)
     (by decide)⟩

/-- Claim C7: saving a well-formed store and loading again yields the
original store — both at the file level (`writeDatabase` then
`readDatabase`) and through the JSON serialization itself
(`decodeStore` after `encodeStore` is the identity). -/
theorem c7_save_load_round_trip (db : Store) (_hwf : WellFormedStore db) :
    readDatabase (writeDatabase db) = .ok (db, writeDatabase db) ∧
    decodeStore (encodeStore db) = some db :=
  ⟨rfl, decodeStore_encodeStore db⟩

/-- A store with one visited record, exercising every field of the codec
for the C7 witness. -/
def c7DemoStore : Store :=
  [("ex1",
    { name := "ex1"
      web_target := "https://example.com"
      web_url := "shortmyurl.us.kg/ex1"
      created_at := "2026-01-01T00:00:00.000Z"
      created_by_ip := "9.9.9.9"
      visits := 2
      visit_history := [{ ip := "7.7.7.7", timestamp := "t1" },
                        { ip := "8.8.8.8", timestamp := "t2" }] })]

/-- Claim C7 witness: the round trip on `c7DemoStore`. -/
theorem c7_witness :
    WellFormedStore c7DemoStore ∧
    readDatabase (writeDatabase c7DemoStore) =
      .ok (c7DemoStore, writeDatabase c7DemoStore) ∧
    decodeStore (encodeStore c7DemoStore) = some c7DemoStore := by
  have hwf : WellFormedStore c7DemoStore := by
    unfold WellFormedStore
    decide
  exact ⟨hwf, c7_save_load_round_trip c7DemoStore hwf⟩

/-- Claim C8: loading an absent file initializes an empty persisted
representation and returns the empty store; loading unparseable content
fails with the storage error; and each of the three handlers surfaces that
failure as the generic 500 response instead of crashing (for `/shorten`
once the input validations, which run before the read, pass). -/
theorem c8_load_behavior :
    readDatabase .absent = .ok ([], .stored []) ∧
    readDatabase .corrupt = .error .parseFailure ∧
    (∀ name ip now,
      resolveApp .corrupt name ip now = (.serverError, .corrupt)) ∧
    (∀ name, statsApp .corrupt name = (.serverError, .corrupt)) ∧
    (∀ url name ip now, url ≠ "" → isValidUrl url = true →
      validName name = true →
      shortenApp .corrupt url name ip now = (.serverError, .corrupt)) := by
  refine ⟨rfl, rfl, fun name ip now => rfl, fun name => rfl, ?_⟩
  intro url name ip now hurl hvu hvn
  have hname : name ≠ "" := by
    intro e
    subst e
    exact absurd hvn (by decide)
  simp [shortenApp, readDatabase, hurl, hvu, hvn, hname]

/-- Claim C8 witness: the two load equations and each handler run against
the corrupt file with concrete, otherwise valid inputs. -/
theorem c8_witness :
    readDatabase .absent = .ok ([], .stored []) ∧
    readDatabase .corrupt = .error .parseFailure ∧
    resolveApp .corrupt "ex1" "1.2.3.4" "t1" = (.serverError, .corrupt) ∧
    statsApp .corrupt "ex1" = (.serverError, .corrupt) ∧
    ("https://example.com" ≠ "" ∧
     isValidUrl "https://example.com" = true ∧
     validName "ex1" = true) ∧
    shortenApp .corrupt "https://example.com" "ex1" "1.2.3.4" "t1" =
      (.serverError, .corrupt) :=
  ⟨c8_load_behavior.1, c8_load_behavior.2.1,
   c8_load_behavior.2.2.1 "ex1" "1.2.3.4" "t1",
   c8_load_behavior.2.2.2.1 "ex1",
   by decide,
   c8_load_behavior.2.2.2.2 "https://example.com" "ex1" "1.2.3.4" "t1"
     (by decide) (by decide) (by decide)⟩

/-- Claim C9: the invariant "every record's key equals its `name` field" is
preserved by each of the three handlers: whenever a handler run on a stored
invariant-satisfying store leaves some store on disk, that store satisfies
the invariant as well. -/
theorem c9_invariant_preserved (db : Store) (hinv : StoreInv db) :
    (∀ url name ip now db',
      (shortenApp (.stored db) url name ip now).2 = .stored db' →
      StoreInv db') ∧
    (∀ name ip now db',
      (resolveApp (.stored db) name ip now).2 = .stored db' →
      StoreInv db') ∧
    (∀ name db',
      (statsApp (.stored db) name).2 = .stored db' → StoreInv db') := by
  refine ⟨?_, ?_, ?_⟩
  · intro url name ip now db' h
    simp only [shortenApp, readDatabase, writeDatabase] at h
    split_ifs at h <;> simp only [FileState.stored.injEq] at h <;> subst h
    all_goals
      first
      | exact hinv
      | exact StoreInv_append db name _ hinv rfl
  · intro name ip now db' h
    simp only [resolveApp, readDatabase, writeDatabase] at h
    cases hfind : lookupStore db name with
    | some r =>
      simp only [hfind, FileState.stored.injEq] at h
      subst h
      exact StoreInv_setStore db name _ hinv
        (hinv _ (lookupStore_mem db name r hfind))
    | none =>
      simp only [hfind] at h
      split_ifs at h <;> simp only [FileState.stored.injEq] at h <;> subst h
      all_goals exact hinv
  · intro name db' h
    simp only [statsApp, readDatabase] at h
    cases hfind : lookupStore db name with
    | some r =>
      simp only [hfind, FileState.stored.injEq] at h
      subst h
      exact hinv
    | none =>
      simp only [hfind] at h
      split_ifs at h <;> simp only [FileState.stored.injEq] at h <;> subst h
      all_goals exact hinv

/-- The C9 witness store: one record whose `name` field equals its key. -/
def c9DemoRecord : ShortLinkRecord :=
  { name := "ex1"
    web_target := "https://example.com"
    web_url := "shortmyurl.us.kg/ex1"
    created_at := "2026-01-01T00:00:00.000Z"
    created_by_ip := "9.9.9.9"
    visits := 0
    visit_history := [] }

/-- See `c9DemoRecord`. -/
def c9DemoStore : Store := [("ex1", c9DemoRecord)]

/-- The store left on disk after resolving "ex1" once on `c9DemoStore`. -/
def c9DemoStoreAfter : Store :=
  [("ex1", updatedRecord c9DemoRecord "1.2.3.4" "t1")]

/-- Claim C9 witness: the invariant holds on the demonstration store and,
by the theorem applied to the resolve handler, on the store the handler
writes. -/
theorem c9_witness : StoreInv c9DemoStore ∧ StoreInv c9DemoStoreAfter := by
  have hinv : StoreInv c9DemoStore := by
    unfold StoreInv
    decide
  exact ⟨hinv, (c9_invariant_preserved c9DemoStore hinv).2.1 "ex1" "1.2.3.4"
    "t1" c9DemoStoreAfter (by decide)⟩

/-- Claim C10: presence is decided by JavaScript truthiness of `db[name]`
on an object inheriting from `Object.prototype`, so for a name that is an
inherited prototype property (all of which are truthy), matches the name
pattern and is not an own key: `/shorten` answers the name-taken conflict
even though the store holds no record under that key, and `GET /:name`
does not answer 404 but fails with the 500 server error while attempting to
update the inherited value. -/
theorem c10_prototype_pollution (db : Store) (url name ip now : String)
    (hproto : protoProps.contains name = true)
    (hnokey : lookupStore db name = none)
    (hvn : validName name = true) (hurl : url ≠ "")
    (hvu : isValidUrl url = true) :
    shortenApp (.stored db) url name ip now =
      (.badRequest .nameTaken, .stored db) ∧
    resolveApp (.stored db) name ip now = (.serverError, .stored db) ∧
    (resolveApp (.stored db) name ip now).1 ≠ .notFound := by
  have hname : name ≠ "" := by
    intro e
    subst e
    exact absurd hvn (by decide)
  have hp2 : name ∈ protoProps := by simpa using hproto
  refine ⟨?_, ?_, ?_⟩
  · simp [shortenApp, readDatabase, jsTruthy, hurl, hvu, hvn, hname,
      hnokey, hp2]
  · simp [resolveApp, readDatabase, hnokey, hp2]
  · simp [resolveApp, readDatabase, hnokey, hp2]

/-- Claim C10 witness: the name "toString" — an inherited
`Object.prototype` property matching `[a-zA-Z0-9-]+` — against the empty
store. -/
theorem c10_witness :
    (protoProps.contains "toString" = true ∧
     lookupStore ([] : Store) "toString" = none ∧
     validName "toString" = true ∧
     "https://example.com" ≠ "" ∧
     isValidUrl "https://example.com" = true) ∧
    shortenApp (.stored []) "https://example.com" "toString" "1.2.3.4"
        "t1" = (.badRequest .nameTaken, .stored []) ∧
    resolveApp (.stored []) "toString" "1.2.3.4" "t1" =
      (.serverError, .stored []) ∧
    (resolveApp (.stored []) "toString" "1.2.3.4" "t1").1 ≠ .notFound :=
  ⟨by decide,
   c10_prototype_pollution [] "https://example.com" "toString" "1.2.3.4"
     "t1" (by decide) (by decide) (by decide) (by decide) (by decide)⟩
